import Mathlib

/-!
Verification of the TRADINGBUDDY rollup/ledger core.

This file gives a shallow embedding, in Lean, of the state-tracking and
rollup-eligibility engine of the repository: the SQLite-backed artifact
ledger (`db.py`), the calendar-boundary arithmetic (`monthly_job.py`,
`db.py`), the trade-date derivation and the per-item processing loop of the
daily stage (`daily_job.py`).  Tables are embedded as Lean lists of row
structures (rows are never deleted by any operation of the source, and all
queries either scan the whole table or locate the unique row matching a
UNIQUE column, so a list with first-match lookup is a faithful model of the
SQLite tables).  Machine dates (`datetime.date`) are embedded as triples of
naturals ordered lexicographically, which is exactly how `datetime.date`
comparison behaves; `date` construction validates its ranges and raises
`ValueError` otherwise, embedded as `Except`.
-/

namespace TradeBuddy

/-- Embedding of `datetime.date`: a year/month/day triple.  Validity (as
enforced by the `datetime.date` constructor) is checked by `mkDate`. -/
structure Date where
  year : Nat
  month : Nat
  day : Nat
deriving DecidableEq, Repr

/-- Gregorian leap-year rule, as used by `datetime.date` for validation. -/
def isLeapYear (y : Nat) : Bool :=
  (y % 4 == 0 && y % 100 != 0) || y % 400 == 0

/-- Number of days in a month of a given year (the `datetime` calendar). -/
def daysInMonth (y m : Nat) : Nat :=
  if m == 2 then (if isLeapYear y then 29 else 28)
  else if m == 4 || m == 6 || m == 9 || m == 11 then 30
  else 31

/-- Embedding of `datetime.date` comparison `<=`: lexicographic on
(year, month, day), which is exactly Python's tuple-wise date order. -/
def dle (a b : Date) : Bool :=
  decide (a.year < b.year) ||
    (a.year == b.year &&
      (decide (a.month < b.month) ||
        (a.month == b.month && decide (a.day ≤ b.day))))

/-- Embedding of `d - datetime.timedelta(days=1)` on a valid date: step to
the previous calendar day, borrowing across month and year boundaries. -/
def predDay (d : Date) : Date :=
  if d.day > 1 then ⟨d.year, d.month, d.day - 1⟩
  else if d.month > 1 then ⟨d.year, d.month - 1, daysInMonth d.year (d.month - 1)⟩
  else ⟨d.year - 1, 12, 31⟩

/-- Python exceptions reachable from the embedded code paths. -/
inductive PyError where
  | valueError
deriving DecidableEq, Repr

/-- Embedding of the `datetime.date(year, month, day)` constructor: yields
the date when the components are in range, `ValueError` otherwise
(`datetime` accepts years 1..9999). -/
def mkDate (y m d : Nat) : Except PyError Date :=
  if 1 ≤ y ∧ y ≤ 9999 ∧ 1 ≤ m ∧ m ≤ 12 ∧ 1 ≤ d ∧ d ≤ daysInMonth y m then
    Except.ok ⟨y, m, d⟩
  else
    Except.error PyError.valueError

/-- Numeric value of an ASCII digit character. -/
def digitVal (c : Char) : Nat := c.toNat - 48

/-- Try to match the regex `(\d{2})_(\d{2})_(\d{4})` at the head of the
character list, returning the captured `(month, day, year)` numbers.  The
pattern is fixed-length, so a match at a position consumes exactly ten
characters. -/
def matchMMDDYYYY : List Char → Option (Nat × Nat × Nat)
  | m1 :: m2 :: u1 :: d1 :: d2 :: u2 :: y1 :: y2 :: y3 :: y4 :: _ =>
    if m1.isDigit && m2.isDigit && u1 == '_' && d1.isDigit && d2.isDigit &&
        u2 == '_' && y1.isDigit && y2.isDigit && y3.isDigit && y4.isDigit then
      some (10 * digitVal m1 + digitVal m2,
            10 * digitVal d1 + digitVal d2,
            1000 * digitVal y1 + 100 * digitVal y2 + 10 * digitVal y3 + digitVal y4)
    else
      none
  | _ => none

/-- Embedding of `re.search(r"(\d{2})_(\d{2})_(\d{4})", s)`: the leftmost
position at which the fixed-length pattern matches (Python's `re.search`
tries start positions left to right). -/
def searchMMDDYYYY : List Char → Option (Nat × Nat × Nat)
  | [] => none
  | c :: cs =>
    match matchMMDDYYYY (c :: cs) with
    | some r => some r
    | none => searchMMDDYYYY cs

/-- Embedding of `datetime.datetime.fromisoformat(normalized).date()` as
used by `parse_trade_date`: the leading `YYYY-MM-DD` component is parsed
and validated; the time-of-day part of the timestamp is discarded by
`.date()` and does not affect the result, so it is not modelled.  The
`replace("Z", "+00:00")` normalisation only rewrites the timezone part,
which is likewise discarded. -/
def isoTimestampDate (s : String) : Except PyError Date :=
  match s.data with
  | y1 :: y2 :: y3 :: y4 :: h1 :: m1 :: m2 :: h2 :: d1 :: d2 :: _ =>
    if y1.isDigit && y2.isDigit && y3.isDigit && y4.isDigit && h1 == '-' &&
        m1.isDigit && m2.isDigit && h2 == '-' && d1.isDigit && d2.isDigit then
      mkDate (1000 * digitVal y1 + 100 * digitVal y2 + 10 * digitVal y3 + digitVal y4)
             (10 * digitVal m1 + digitVal m2)
             (10 * digitVal d1 + digitVal d2)
    else
      Except.error PyError.valueError
  | _ => Except.error PyError.valueError

/-- Embedding of `daily_job.parse_trade_date(file_name, modified_time)`.
`today` stands for `datetime.date.today()`, passed explicitly.  The result
is `Except` because `datetime.date` construction can raise `ValueError`. -/
def parse_trade_date (fileName : String) (modifiedTime : Option String)
    (today : Date) : Except PyError Date :=
  match searchMMDDYYYY fileName.data with
  | some (month, day, year) => mkDate year month day
  | none =>
    match modifiedTime with
    | some mt => isoTimestampDate mt
    | none => Except.ok today

/-- Row of the `raw_files` table (`db.py`, `_ensure_tables`).
`drive_file_id` is the UNIQUE source identity; `daily_report_drive_id` is
the nullable derived-output reference and `processed_at` the nullable
consumed timestamp. -/
structure RawRow where
  driveFileId : String
  fileName : String
  tradeDate : String
  dailyReportDriveId : Option String
  processedAt : Option String
deriving DecidableEq, Repr

/-- The `raw_files` table, in rowid order. -/
abbrev RawTable := List RawRow

/-- Python truthiness of an optional string, as in
`if daily_report_drive_id:` — `None` and the empty string are falsy. -/
def pyTruthy (o : Option String) : Bool :=
  match o with
  | none => false
  | some s => !(s == "")

/-- Locate the row with the given `drive_file_id` (UNIQUE column, so the
first match is the only match in well-formed tables). -/
def findRaw (t : RawTable) (id : String) : Option RawRow :=
  t.find? (fun r => r.driveFileId == id)

/-- Embedding of `Database.record_raw_file` (`db.py` lines 77-99):
`INSERT ... ON CONFLICT(drive_file_id) DO UPDATE SET` where the conflict
branch overwrites `file_name`, `trade_date` and `daily_report_drive_id`
with the excluded (new) values and sets
`processed_at = COALESCE(excluded.processed_at, raw_files.processed_at)`.
The new `processed_at` value is the current time when
`daily_report_drive_id` is truthy, else NULL. -/
def record_raw_file (t : RawTable) (driveFileId fileName tradeDate : String)
    (dailyReportDriveId : Option String) (now : String) : RawTable :=
  let processedAt : Option String :=
    if pyTruthy dailyReportDriveId then some now else none
  if t.any (fun r => r.driveFileId == driveFileId) then
    t.map (fun r =>
      if r.driveFileId == driveFileId then
        { r with
          fileName := fileName
          tradeDate := tradeDate
          dailyReportDriveId := dailyReportDriveId
          processedAt := processedAt.orElse (fun _ => r.processedAt) }
      else r)
  else
    t ++ [⟨driveFileId, fileName, tradeDate, dailyReportDriveId, processedAt⟩]

/-- Embedding of `Database.mark_raw_file_processed` (`db.py` lines
101-108): a plain `UPDATE ... WHERE drive_file_id=?`.  An UPDATE matching
zero rows succeeds silently in SQLite, so the operation is total. -/
def mark_raw_file_processed (t : RawTable) (driveFileId dailyReportDriveId now : String) :
    RawTable :=
  t.map (fun r =>
    if r.driveFileId == driveFileId then
      { r with
        dailyReportDriveId := some dailyReportDriveId
        processedAt := some now }
    else r)

/-- Errors named by the specification for Ledger operations. -/
inductive LedgerError where
  | notFound
deriving DecidableEq, Repr

/-- `Database.mark_raw_file_processed` viewed in an error monad, to settle
whether it can fail with `NotFound`: the source has no error path for an
unknown id (the UPDATE simply matches zero rows), so the result is always
`ok`. -/
def mark_raw_file_processedE (t : RawTable) (driveFileId dailyReportDriveId now : String) :
    Except LedgerError RawTable :=
  Except.ok (mark_raw_file_processed t driveFileId dailyReportDriveId now)

/-- Embedding of `Database.raw_file_needs_processing` (`db.py` lines
110-119): true when the id is unknown or its `daily_report_drive_id` is
NULL. -/
def raw_file_needs_processing (t : RawTable) (driveFileId : String) : Bool :=
  match findRaw t driveFileId with
  | none => true
  | some r => r.dailyReportDriveId.isNone

/-- Row of the `daily_reports` table.  `included_in_weekly INTEGER
DEFAULT 0` is embedded as a `Bool`. -/
structure DailyRow where
  rowId : Nat
  driveFileId : String
  fileName : String
  reportDate : String
  includedInWeekly : Bool
deriving DecidableEq, Repr

/-- Embedding of `Database.record_daily_report` (`db.py` lines 128-146):
the conflict branch updates only `file_name` and `report_date`; an insert
gets `included_in_weekly` from its DEFAULT 0 and a fresh rowid (rows are
never deleted, so `length + 1` models SQLite rowid assignment). -/
def record_daily_report (t : List DailyRow) (driveFileId fileName reportDate : String) :
    List DailyRow :=
  if t.any (fun r => r.driveFileId == driveFileId) then
    t.map (fun r =>
      if r.driveFileId == driveFileId then
        { r with fileName := fileName, reportDate := reportDate }
      else r)
  else
    t ++ [⟨t.length + 1, driveFileId, fileName, reportDate, false⟩]

/-- Embedding of `Database.mark_daily_reports_included` (`db.py` lines
161-169): early return on an empty id list, else
`UPDATE daily_reports SET included_in_weekly = 1 WHERE id = ?` for each
id. -/
def mark_daily_reports_included (t : List DailyRow) (reportIds : List Nat) :
    List DailyRow :=
  if reportIds.isEmpty then t
  else
    t.map (fun r =>
      if reportIds.contains r.rowId then { r with includedInWeekly := true }
      else r)

/-- The `included_in_weekly` flag of the row with the given rowid. -/
def included_in_weekly_of (t : List DailyRow) (rid : Nat) : Option Bool :=
  (t.find? (fun r => r.rowId == rid)).map (fun r => r.includedInWeekly)

/-- The Ledger operations that write the `daily_reports` table
(`get_daily_reports_for_week` is read-only and writes nothing). -/
inductive DailyOp where
  | record (driveFileId fileName reportDate : String)
  | mark (reportIds : List Nat)
deriving Repr

/-- Apply one `daily_reports` write. -/
def applyDailyOp (t : List DailyRow) : DailyOp → List DailyRow
  | DailyOp.record fid name rdate => record_daily_report t fid name rdate
  | DailyOp.mark ids => mark_daily_reports_included t ids

/-- Apply a sequence of `daily_reports` writes, oldest first. -/
def applyDailyOps (t : List DailyRow) (ops : List DailyOp) : List DailyRow :=
  ops.foldl applyDailyOp t

/-- Row of the `weekly_reports` table.  The `week_start_date` and
`week_end_date` TEXT columns hold ISO dates; they are embedded as `Date`
(the code parses them with `date.fromisoformat` before comparing). -/
structure WeeklyRow where
  rowId : Nat
  driveFileId : String
  fileName : String
  isoYear : Nat
  isoWeek : Nat
  weekStartDate : Date
  weekEndDate : Date
  includedInMonthly : Bool
deriving DecidableEq, Repr

/-- `dt.date(year, month, 1)` as computed by
`Database.get_weekly_reports_for_month`. -/
def month_start (year month : Nat) : Date := ⟨year, month, 1⟩

/-- The month-end computation of `Database.get_weekly_reports_for_month`
(`db.py` lines 212-216): `date(year + 1, 1, 1) - timedelta(days=1)` for
December, `date(year, month + 1, 1) - timedelta(days=1)` otherwise. -/
def month_end (year month : Nat) : Date :=
  if month == 12 then predDay ⟨year + 1, 1, 1⟩
  else predDay ⟨year, month + 1, 1⟩

/-- Embedding of `Database.get_weekly_reports_for_month` (`db.py` lines
210-227): SQL selects the rows with `included_in_monthly = 0`, then Python
keeps those with `week_start <= month_end and week_end >= month_start`. -/
def get_weekly_reports_for_month (t : List WeeklyRow) (year month : Nat) :
    List WeeklyRow :=
  (t.filter (fun r => r.includedInMonthly == false)).filter
    (fun r => dle r.weekStartDate (month_end year month) &&
              dle (month_start year month) r.weekEndDate)

/-- Embedding of `Database.mark_weekly_reports_included` (`db.py` lines
229-238): early return on an empty id list, else set
`included_in_monthly = 1` on every row whose id is listed. -/
def mark_weekly_reports_included (t : List WeeklyRow) (reportIds : List Nat) :
    List WeeklyRow :=
  if reportIds.isEmpty then t
  else
    t.map (fun r =>
      if reportIds.contains r.rowId then { r with includedInMonthly := true }
      else r)

/-- Embedding of `monthly_job.previous_month`: step to day 1 of the
reference month, subtract one day to land in the prior month, and take
that month's day 1 together with the landing day. -/
def previous_month (reference : Date) : Date × Date :=
  let firstThisMonth : Date := ⟨reference.year, reference.month, 1⟩
  let lastPrevMonth := predDay firstThisMonth
  let firstPrevMonth : Date := ⟨lastPrevMonth.year, lastPrevMonth.month, 1⟩
  (firstPrevMonth, lastPrevMonth)

/-- Metadata of a file listed from the source folder
(`drive_client.list_files_in_folder` result entries). -/
structure FileMeta where
  id : String
  name : String
  modifiedTime : Option String
deriving DecidableEq, Repr

/-- The CSV gate of `daily_job.main` (lines 159-161):
`f.get("name", "").lower().endswith(".csv")`, embedded at the character
level (ASCII lowering, trailing-segment test). -/
def is_csv_file (f : FileMeta) : Bool :=
  (".csv".data).isSuffixOf (f.name.data.map Char.toLower)

/-- Embedding of the per-item loop of `daily_job.main` (lines 163-175)
over an abstract item type.  `needs` is the `raw_file_needs_processing`
gate (a false gate hits `continue`); `process` is the body
(`process_file`), which mutates the state `σ` and either succeeds or
raises — the `try/except` at the item boundary catches the exception, so
`process` is embedded as returning the final state together with an
optional error, and the loop continues unconditionally.  The returned log
has one entry per attempted item, in order, with its outcome. -/
def processDailyFiles {σ α ε : Type} (needs : σ → α → Bool)
    (process : σ → α → σ × Option ε) : σ → List α → σ × List (α × Option ε)
  | s, [] => (s, [])
  | s, f :: fs =>
    if needs s f then
      let r := process s f
      let rest := processDailyFiles needs process r.1 fs
      (rest.1, (f, r.2) :: rest.2)
    else
      processDailyFiles needs process s fs

/-- Embedding of `daily_job.main`'s file handling: the listed files are
first narrowed to those whose lowercased name ends in `.csv`, and only the
survivors enter the per-item loop. -/
def daily_main_attempts {σ ε : Type} (needs : σ → FileMeta → Bool)
    (process : σ → FileMeta → σ × Option ε) (s : σ) (files : List FileMeta) :
    σ × List (FileMeta × Option ε) :=
  processDailyFiles needs process s (files.filter is_csv_file)

/-- Test fixture: a weekly artifact spanning 2024-02-26 .. 2024-03-03
(ISO week 9 of 2024, crossing the February/March boundary). -/
def crossMonthWeek : WeeklyRow :=
  ⟨1, "w1", "weekly_2024_w09.md", 2024, 9, ⟨2024, 2, 26⟩, ⟨2024, 3, 3⟩, false⟩

/-- Test fixture: a CSV file listing entry. -/
def csvFileA : FileMeta := ⟨"id-a", "trades_03_14_2024.csv", none⟩

/-- Test fixture: a second CSV file listing entry. -/
def csvFileB : FileMeta := ⟨"id-b", "Export.CSV", some "2024-03-14T10:00:00Z"⟩

/-- Test fixture: a non-CSV file listing entry. -/
def txtFile : FileMeta := ⟨"id-c", "notes.txt", none⟩

/-- Test fixture: a state-counting gate/process pair for the daily loop. -/
def countProcess : Nat → FileMeta → Nat × Option Unit :=
  fun n _ => (n + 1, none)

/-- Test fixture: a daily artifact row whose flag is already set. -/
def flaggedDaily : DailyRow := ⟨1, "d1", "daily_report_2024-03-14.md", "2024-03-14", true⟩

/-- Test fixture: a write sequence against the `daily_reports` table. -/
def dailyOpsSample : List DailyOp :=
  [DailyOp.record "d1" "daily_report_2024-03-15.md" "2024-03-15",
   DailyOp.mark [1],
   DailyOp.record "d2" "daily_report_2024-03-16.md" "2024-03-16"]

/-! ## Helper lemmas on list lookup and update -/

theorem find?_map_comm {α : Type} (p : α → Bool) (g : α → α)
    (hg : ∀ a, p (g a) = p a) :
    ∀ l : List α, (l.map g).find? p = (l.find? p).map g := by
  intro l
  induction l with
  | nil => rfl
  | cons a l ih =>
    cases h : p a with
    | true =>
      rw [List.map_cons, List.find?_cons_of_pos _ (by rw [hg]; exact h),
        List.find?_cons_of_pos _ h]
      rfl
    | false =>
      rw [List.map_cons, List.find?_cons_of_neg _ (by rw [hg, h]; simp),
        List.find?_cons_of_neg _ (by rw [h]; simp), ih]

theorem map_eq_self_of_find?_none {α : Type} (p : α → Bool) (g : α → α) :
    ∀ l : List α, l.find? p = none →
      (l.map fun a => if p a then g a else a) = l := by
  intro l
  induction l with
  | nil => intro _; rfl
  | cons a l ih =>
    intro h
    cases hp : p a with
    | true => rw [List.find?_cons_of_pos _ hp] at h; exact absurd h (by simp)
    | false =>
      rw [List.find?_cons_of_neg _ (by rw [hp]; simp)] at h
      rw [List.map_cons, if_neg (by simp [hp]), ih h]

/-! ## Claim theorems -/

/-- C1: the claim fails on the code.  Upserting an already-processed raw
input with `derivedRef = null` DOES revert the derived-output reference to
null (the conflict branch overwrites `daily_report_drive_id`
unconditionally) while the consumed timestamp is kept by its COALESCE —
leaving the row in the state `derivedRef = null ∧ processedAt ≠ null`,
which also breaks the data model's iff-invariant. -/
theorem record_raw_file_reverts_derived_ref :
    record_raw_file
        (record_raw_file [] "f1" "trades_03_14_2024.csv" "2024-03-14" (some "report-1") "T1")
        "f1" "trades_03_14_2024.csv" "2024-03-14" none "T2"
      = [⟨"f1", "trades_03_14_2024.csv", "2024-03-14", none, some "T1"⟩] := by
  decide

/-- C2: the first half of the claim (needsProcessing is true exactly when
the id is unknown or its derived reference is null) matches the code, but
the "false forever after" half fails: after `mark_raw_file_processed`, a
later `record_raw_file` with a null derived reference makes
`raw_file_needs_processing` true again. -/
theorem raw_file_needs_processing_regresses :
    raw_file_needs_processing
        (mark_raw_file_processed
          (record_raw_file [] "f1" "trades_03_14_2024.csv" "2024-03-14" none "T1")
          "f1" "report-1" "T2")
        "f1" = false
    ∧ raw_file_needs_processing
        (record_raw_file
          (mark_raw_file_processed
            (record_raw_file [] "f1" "trades_03_14_2024.csv" "2024-03-14" none "T1")
            "f1" "report-1" "T2")
          "f1" "trades_03_14_2024.csv" "2024-03-14" none "T3")
        "f1" = true := by
  decide

/-- C3 counterexample: for an unknown source identity,
`mark_raw_file_processed` does not fail with `NotFound` — the UPDATE
matches zero rows and the call returns normally with the table
unchanged. -/
theorem mark_raw_file_processed_unknown_returns_ok :
    mark_raw_file_processedE [] "missing-id" "report-1" "2024-03-14T00:00:00" = Except.ok []
    ∧ mark_raw_file_processedE [] "missing-id" "report-1" "2024-03-14T00:00:00"
        ≠ Except.error LedgerError.notFound := by
  exact ⟨rfl, by simp [mark_raw_file_processedE]⟩

/-- C3 (amended): for an unknown source identity
`mark_raw_file_processed` is a silent no-op (it never raises `NotFound`);
for every known source identity it sets the derived-output reference and
the consumed timestamp on that row. -/
theorem mark_raw_file_processed_behavior :
    ∀ (t : RawTable) (id ref now : String),
      (findRaw t id = none → mark_raw_file_processed t id ref now = t)
      ∧ (∀ r, findRaw t id = some r →
          findRaw (mark_raw_file_processed t id ref now) id =
            some { r with dailyReportDriveId := some ref, processedAt := some now }) := by
  intro t id ref now
  have hg : ∀ a : RawRow,
      (((fun r : RawRow =>
          if r.driveFileId == id then
            { r with dailyReportDriveId := some ref, processedAt := some now }
          else r) a).driveFileId == id) = (a.driveFileId == id) := by
    intro a
    cases h : a.driveFileId == id <;> simp [h]
  constructor
  · intro h
    unfold findRaw at h
    exact map_eq_self_of_find?_none (fun r => r.driveFileId == id)
      (fun r => { r with dailyReportDriveId := some ref, processedAt := some now }) t h
  · intro r hr
    unfold findRaw at hr
    have hp := List.find?_some hr
    show (t.map _).find? _ = _
    rw [find?_map_comm (fun r : RawRow => r.driveFileId == id) _ hg t]
    rw [hr]
    have hp2 : r.driveFileId = id := by simpa using hp
    simp [hp2]

/-- C3 witness: the amended theorem applied at concrete inputs, covering
both the unknown-id branch and the known-id branch. -/
theorem mark_raw_file_processed_behavior_witness :
    mark_raw_file_processed [] "missing-id" "report-1" "T0" = []
    ∧ findRaw
        (mark_raw_file_processed [⟨"f1", "n.csv", "2024-03-14", none, none⟩] "f1" "report-1" "T0")
        "f1"
      = some ⟨"f1", "n.csv", "2024-03-14", some "report-1", some "T0"⟩ :=
  ⟨(mark_raw_file_processed_behavior [] "missing-id" "report-1" "T0").1 rfl,
   (mark_raw_file_processed_behavior [⟨"f1", "n.csv", "2024-03-14", none, none⟩]
      "f1" "report-1" "T0").2 ⟨"f1", "n.csv", "2024-03-14", none, none⟩ rfl⟩

/-- C4: `get_weekly_reports_for_month` returns exactly the weekly rows
with a false included-in-monthly flag whose `[start, end]` interval
overlaps the month's `[monthStart, monthEnd]`; concretely, the artifact
spanning 2024-02-26 .. 2024-03-03 is returned for both (2024, 2) and
(2024, 3) while unmarked, and for neither once
`mark_weekly_reports_included` has flagged it. -/
theorem get_weekly_reports_for_month_spec :
    (∀ (t : List WeeklyRow) (year month : Nat) (r : WeeklyRow),
        r ∈ get_weekly_reports_for_month t year month ↔
          r ∈ t ∧ r.includedInMonthly = false ∧
            dle r.weekStartDate (month_end year month) = true ∧
            dle (month_start year month) r.weekEndDate = true)
    ∧ crossMonthWeek ∈ get_weekly_reports_for_month [crossMonthWeek] 2024 2
    ∧ crossMonthWeek ∈ get_weekly_reports_for_month [crossMonthWeek] 2024 3
    ∧ get_weekly_reports_for_month (mark_weekly_reports_included [crossMonthWeek] [1]) 2024 2 = []
    ∧ get_weekly_reports_for_month (mark_weekly_reports_included [crossMonthWeek] [1]) 2024 3 = [] := by
  refine ⟨?_, by decide, by decide, by decide, by decide⟩
  intro t year month r
  simp [get_weekly_reports_for_month, List.mem_filter, and_assoc]
  tauto

/-- C5: `parse_trade_date` follows the three-tier fallback: a filename
whose first `MM_DD_YYYY` pattern occurrence captures (m, d, y) yields
`date(y, m, d)` regardless of the modified time; without the pattern the
modified time's date is used; without either, the current date.  Includes
the spec's three concrete examples. -/
theorem parse_trade_date_three_tier :
    (∀ (fileName : String) (mt : Option String) (today : Date) (m d y : Nat),
        searchMMDDYYYY fileName.data = some (m, d, y) →
        parse_trade_date fileName mt today = mkDate y m d)
    ∧ (∀ (mt : Option String) (today : Date),
        parse_trade_date "trades_03_14_2024.csv" mt today = Except.ok ⟨2024, 3, 14⟩)
    ∧ (∀ today : Date,
        parse_trade_date "export.csv" (some "2024-03-14T10:00:00Z") today
          = Except.ok ⟨2024, 3, 14⟩)
    ∧ (∀ today : Date, parse_trade_date "export.csv" none today = Except.ok today) := by
  refine ⟨?_, fun mt today => rfl, fun today => rfl, fun today => rfl⟩
  intro fileName mt today m d y h
  unfold parse_trade_date
  rw [h]

/-- C5 witness: the pattern tier applied at a concrete input. -/
theorem parse_trade_date_three_tier_witness :
    parse_trade_date "trades_03_14_2024.csv" none ⟨2024, 1, 1⟩ = mkDate 2024 3 14 :=
  parse_trade_date_three_tier.1 "trades_03_14_2024.csv" none ⟨2024, 1, 1⟩ 3 14 2024 rfl

/-- C6: the calendar-boundary arithmetic is exact: `previous_month` at
2024-01-15 returns (2023-12-01, 2023-12-31); the month-end computation
yields 2024-02-29 for (2024, 2) and 2023-02-28 for (2023, 2); and for
month 12 of any year it rolls over December to the next January's eve,
i.e. December 31 of the same year. -/
theorem calendar_boundaries_exact :
    previous_month ⟨2024, 1, 15⟩ = (⟨2023, 12, 1⟩, ⟨2023, 12, 31⟩)
    ∧ month_end 2024 2 = ⟨2024, 2, 29⟩
    ∧ month_end 2023 2 = ⟨2023, 2, 28⟩
    ∧ ∀ year : Nat, month_end year 12 = ⟨year, 12, 31⟩ := by
  refine ⟨by decide, by decide, by decide, fun year => ?_⟩
  simp [month_end, predDay]

/-- C10: the fallback chain of `parse_trade_date` is not consulted when
the `MM_DD_YYYY` pattern matches with out-of-range values: for
`report_13_40_2024.csv` (month 13, day 40) the call raises `ValueError`
from date construction for every modified time and every current date,
instead of falling back. -/
theorem parse_trade_date_invalid_pattern_raises :
    ∀ (mt : Option String) (today : Date),
      parse_trade_date "report_13_40_2024.csv" mt today
        = Except.error PyError.valueError := by
  intro mt today
  rfl

/-! ## Helper lemmas for the daily loop and the daily_reports flag -/

theorem processDailyFiles_log_fst {σ α ε : Type} (process : σ → α → σ × Option ε) :
    ∀ (files : List α) (s : σ),
      ((processDailyFiles (fun _ _ => true) process s files).2).map Prod.fst = files := by
  intro files
  induction files with
  | nil => intro s; rfl
  | cons f fs ih => intro s; simp [processDailyFiles, ih]

theorem processDailyFiles_success_fst {σ α ε : Type} (act : σ → α → σ)
    (fails : α → Bool) (e0 : ε) :
    ∀ (files : List α) (s : σ),
      ((((processDailyFiles (fun _ _ => true)
              (fun st a => (act st a, if fails a then some e0 else none)) s files).2).filter
          (fun p => p.2.isNone)).map Prod.fst)
        = files.filter (fun a => !fails a) := by
  intro files
  induction files with
  | nil => intro s; rfl
  | cons f fs ih =>
    intro s
    cases h : fails f <;> simp [processDailyFiles, h, ih]

theorem processDailyFiles_attempted_mem {σ α ε : Type} (needs : σ → α → Bool)
    (process : σ → α → σ × Option ε) :
    ∀ (files : List α) (s : σ) (p : α × Option ε),
      p ∈ (processDailyFiles needs process s files).2 → p.1 ∈ files := by
  intro files
  induction files with
  | nil => intro s p hp; simp [processDailyFiles] at hp
  | cons f fs ih =>
    intro s p hp
    cases h : needs s f with
    | true =>
      simp [processDailyFiles, h] at hp
      rcases hp with hp | hp
      · simp [hp]
      · exact List.mem_cons_of_mem _ (ih _ _ hp)
    | false =>
      simp [processDailyFiles, h] at hp
      exact List.mem_cons_of_mem _ (ih _ _ hp)

theorem record_daily_preserves_flag :
    ∀ (t : List DailyRow) (fid name rdate : String) (rid : Nat) (b : Bool),
      included_in_weekly_of t rid = some b →
      included_in_weekly_of (record_daily_report t fid name rdate) rid = some b := by
  intro t fid name rdate rid b hb
  have hg : ∀ a : DailyRow,
      (((fun r : DailyRow =>
          if r.driveFileId == fid then { r with fileName := name, reportDate := rdate }
          else r) a).rowId == rid) = (a.rowId == rid) := by
    intro a
    cases h : a.driveFileId == fid <;> simp [h]
  unfold record_daily_report
  cases hmem : t.any (fun r => r.driveFileId == fid) with
  | true =>
    rw [if_pos rfl]
    unfold included_in_weekly_of at hb ⊢
    rw [find?_map_comm (fun r : DailyRow => r.rowId == rid) _ hg t]
    obtain ⟨r, hr, hflag⟩ := Option.map_eq_some'.mp hb
    rw [hr]
    cases h : r.driveFileId == fid with
    | true =>
      have h2 : r.driveFileId = fid := by simpa using h
      simp [h2, hflag]
    | false =>
      have h2 : ¬ r.driveFileId = fid := by simpa using h
      simp [h2, hflag]
  | false =>
    rw [if_neg (by simp)]
    unfold included_in_weekly_of at hb ⊢
    rw [List.find?_append]
    obtain ⟨r, hr, hflag⟩ := Option.map_eq_some'.mp hb
    rw [hr]
    simp [hflag]

theorem mark_daily_preserves_true :
    ∀ (t : List DailyRow) (ids : List Nat) (rid : Nat),
      included_in_weekly_of t rid = some true →
      included_in_weekly_of (mark_daily_reports_included t ids) rid = some true := by
  intro t ids rid hb
  have hg : ∀ a : DailyRow,
      (((fun r : DailyRow =>
          if ids.contains r.rowId then { r with includedInWeekly := true }
          else r) a).rowId == rid) = (a.rowId == rid) := by
    intro a
    by_cases h : a.rowId ∈ ids <;> simp [h]
  unfold mark_daily_reports_included
  cases he : ids.isEmpty with
  | true => rw [if_pos rfl]; exact hb
  | false =>
    rw [if_neg (by simp)]
    unfold included_in_weekly_of at hb ⊢
    rw [find?_map_comm (fun r : DailyRow => r.rowId == rid) _ hg t]
    obtain ⟨r, hr, hflag⟩ := Option.map_eq_some'.mp hb
    rw [hr]
    cases h : ids.contains r.rowId with
    | true =>
      have h2 : r.rowId ∈ ids := by simpa using h
      simp [h2, hflag]
    | false =>
      have h2 : r.rowId ∉ ids := by simpa using h
      simp [h2, hflag]

theorem mark_daily_idem :
    ∀ (t : List DailyRow) (ids : List Nat),
      mark_daily_reports_included (mark_daily_reports_included t ids) ids
        = mark_daily_reports_included t ids := by
  intro t ids
  cases he : ids.isEmpty with
  | true => simp [mark_daily_reports_included, he]
  | false =>
    unfold mark_daily_reports_included
    rw [if_neg (by rw [he]; simp), if_neg (by rw [he]; simp), List.map_map]
    refine List.map_congr_left ?_
    intro r _
    by_cases h : r.rowId ∈ ids <;> simp [Function.comp, h]

theorem mark_daily_keeps_true_row :
    ∀ (t : List DailyRow) (ids : List Nat) (r : DailyRow),
      r ∈ t → r.includedInWeekly = true → r ∈ mark_daily_reports_included t ids := by
  intro t ids r hr hflag
  unfold mark_daily_reports_included
  cases he : ids.isEmpty with
  | true => rw [if_pos rfl]; exact hr
  | false =>
    rw [if_neg (by simp)]
    obtain ⟨i, f1, f2, f3, fl⟩ := r
    simp only at hflag
    subst hflag
    refine List.mem_map.mpr ⟨⟨i, f1, f2, f3, true⟩, hr, ?_⟩
    by_cases h : i ∈ ids
    · simp [h]
    · simp [h]

theorem flag_monotone_ops :
    ∀ (ops : List DailyOp) (t : List DailyRow) (rid : Nat),
      included_in_weekly_of t rid = some true →
      included_in_weekly_of (applyDailyOps t ops) rid = some true := by
  intro ops
  induction ops with
  | nil => intro t rid h; exact h
  | cons op ops ih =>
    intro t rid h
    show included_in_weekly_of (applyDailyOps (applyDailyOp t op) ops) rid = some true
    refine ih _ _ ?_
    cases op with
    | record fid name rdate => exact record_daily_preserves_flag t fid name rdate rid true h
    | mark ids => exact mark_daily_preserves_true t ids rid h

/-- C7: in the daily stage's per-item loop, a processing failure on one
item is absorbed at the item boundary and the loop attempts every
remaining item.  First conjunct: over any list of eligible items, the
loop's log has exactly one attempt entry per item, in order, for every
processing behaviour (in particular for ones that fail on any subset of
items).  Second conjunct: when processing fails on exactly the items
selected by a failure predicate, the successful attempts are exactly the
non-failing items — so a run over N items with one failure succeeds on the
other N-1. -/
theorem daily_loop_failure_isolation :
    (∀ (σ α ε : Type) (process : σ → α → σ × Option ε) (s : σ) (files : List α),
        ((processDailyFiles (fun _ _ => true) process s files).2).map Prod.fst = files)
    ∧ (∀ (σ α ε : Type) (act : σ → α → σ) (fails : α → Bool) (e0 : ε) (s : σ)
          (files : List α),
        ((((processDailyFiles (fun _ _ => true)
                (fun st a => (act st a, if fails a then some e0 else none)) s files).2).filter
            (fun p => p.2.isNone)).map Prod.fst)
          = files.filter (fun a => !fails a)) :=
  ⟨fun _ _ _ process s files => processDailyFiles_log_fst process files s,
   fun _ _ _ act fails e0 s files => processDailyFiles_success_fst act fails e0 files s⟩

/-- C8: the included-in-weekly flag never reverts.  Re-upserting a daily
artifact by source identity preserves every row's flag; flagging is
idempotent (`mark_daily_reports_included` twice equals once, and a row
whose flag is already true is left identical); and under any sequence of
`daily_reports` writes a true flag stays true. -/
theorem included_in_weekly_monotone :
    (∀ (t : List DailyRow) (fid name rdate : String) (rid : Nat) (b : Bool),
        included_in_weekly_of t rid = some b →
        included_in_weekly_of (record_daily_report t fid name rdate) rid = some b)
    ∧ (∀ (t : List DailyRow) (ids : List Nat),
        mark_daily_reports_included (mark_daily_reports_included t ids) ids
          = mark_daily_reports_included t ids)
    ∧ (∀ (t : List DailyRow) (ids : List Nat) (r : DailyRow),
        r ∈ t → r.includedInWeekly = true → r ∈ mark_daily_reports_included t ids)
    ∧ (∀ (t : List DailyRow) (ops : List DailyOp) (rid : Nat),
        included_in_weekly_of t rid = some true →
        included_in_weekly_of (applyDailyOps t ops) rid = some true) :=
  ⟨record_daily_preserves_flag, mark_daily_idem, mark_daily_keeps_true_row,
   fun t ops rid h => flag_monotone_ops ops t rid h⟩

/-- C8 witness: the monotonicity theorem applied at concrete inputs — a
flagged row survives a re-upsert, a repeated mark, and a mixed write
sequence. -/
theorem included_in_weekly_monotone_witness :
    included_in_weekly_of
        (record_daily_report [flaggedDaily] "d1" "daily_v2.md" "2024-03-15") 1 = some true
    ∧ mark_daily_reports_included (mark_daily_reports_included [flaggedDaily] [1]) [1]
        = mark_daily_reports_included [flaggedDaily] [1]
    ∧ flaggedDaily ∈ mark_daily_reports_included [flaggedDaily] [1]
    ∧ included_in_weekly_of (applyDailyOps [flaggedDaily] dailyOpsSample) 1 = some true :=
  ⟨included_in_weekly_monotone.1 [flaggedDaily] "d1" "daily_v2.md" "2024-03-15" 1 true rfl,
   included_in_weekly_monotone.2.1 [flaggedDaily] [1],
   included_in_weekly_monotone.2.2.1 [flaggedDaily] [1] flaggedDaily (by decide) rfl,
   included_in_weekly_monotone.2.2.2 [flaggedDaily] dailyOpsSample 1 rfl⟩

/-- C9: only files whose lowercased name ends in `.csv` reach the daily
stage's per-item processing: every attempted item passes the CSV gate, and
inserting a non-CSV file anywhere in the listing leaves the entire run —
final state and attempt log, hence every Ledger write — unchanged, so a
non-CSV file never creates a RawInput entry. -/
theorem daily_main_csv_only :
    ∀ (σ ε : Type) (needs : σ → FileMeta → Bool)
      (process : σ → FileMeta → σ × Option ε) (s : σ) (files : List FileMeta),
      (∀ p, p ∈ (daily_main_attempts needs process s files).2 → is_csv_file p.1 = true)
      ∧ (∀ g, is_csv_file g = false →
          ∀ pre post,
            daily_main_attempts needs process s (pre ++ g :: post)
              = daily_main_attempts needs process s (pre ++ post)) := by
  intro σ ε needs process s files
  constructor
  · intro p hp
    have h1 : p.1 ∈ files.filter is_csv_file :=
      processDailyFiles_attempted_mem needs process (files.filter is_csv_file) s p hp
    exact (List.mem_filter.mp h1).2
  · intro g hg pre post
    unfold daily_main_attempts
    have h2 : (pre ++ g :: post).filter is_csv_file = (pre ++ post).filter is_csv_file := by
      simp [List.filter_append, List.filter_cons, hg]
    rw [h2]

/-- C9 witness: the CSV-gate theorem applied at concrete inputs — a CSV
attempt passes the gate, and a run with a `.txt` file inserted equals the
run without it. -/
theorem daily_main_csv_only_witness :
    is_csv_file csvFileA = true
    ∧ daily_main_attempts (fun _ _ => true) countProcess 0 [csvFileA, txtFile, csvFileB]
        = daily_main_attempts (fun _ _ => true) countProcess 0 [csvFileA, csvFileB] :=
  ⟨(daily_main_csv_only Nat Unit (fun _ _ => true) countProcess 0 [csvFileA, csvFileB]).1
      (csvFileA, none) (by decide),
   (daily_main_csv_only Nat Unit (fun _ _ => true) countProcess 0 []).2 txtFile (by decide)
      [csvFileA] [csvFileB]⟩
